import Mathlib

-- Verification of the recipe backend (src/server.js): the request-canonicalization
-- and dedup cache of POST /get-recipe, the tiered ingredient extraction of
-- POST /scrape-recipe, and the favourite toggle of POST /recipes/:id/favourite.
-- JavaScript strings are embedded as Lean `String` (sequences of code points;
-- the divergence from UTF-16 code units only matters for astral characters),
-- external collaborators (the sha256 digest, JSON.parse, the generative-AI
-- endpoint, the HTML facility) are oracle parameters, and the Firestore
-- collection is an explicit list of records with a fresh-id counter.

-- ## Character and string utilities mirroring the JavaScript operations

/-- Whitespace class of the JavaScript regular-expression escape backslash-s
(space, tab, line terminators, and the Unicode space characters). -/
def isWs (c : Char) : Bool :=
  let n := c.toNat
  (0x9 ≤ n && n ≤ 0xd) || n == 0x20 || n == 0xa0 || n == 0x1680 ||
  (0x2000 ≤ n && n ≤ 0x200a) || n == 0x2028 || n == 0x2029 || n == 0x202f ||
  n == 0x205f || n == 0x3000 || n == 0xfeff

/-- JavaScript String.prototype.trim on a character list: drop whitespace from
both ends. -/
def trimL (l : List Char) : List Char :=
  ((l.dropWhile isWs).reverse.dropWhile isWs).reverse

/-- JavaScript String.prototype.trim. -/
def trimStr (s : String) : String :=
  String.mk (trimL s.data)

/-- One pass of `replace(/\s\s+/g, ' ')`: a maximal run of two or more
whitespace characters becomes a single space, a lone whitespace character is
kept. The `fuel` argument is an upper bound on the number of steps (the length
of the list) so that the recursion is structural and kernel-reducible; it never
runs out when initialized with the list length. -/
def collapseGo (fuel : Nat) (l : List Char) : List Char :=
  match fuel, l with
  | 0, l => l
  | _ + 1, [] => []
  | f + 1, c :: rest =>
    if isWs c then
      match rest with
      | [] => [c]
      | c2 :: rest2 =>
        if isWs c2 then ' ' :: collapseGo f (rest2.dropWhile isWs)
        else c :: c2 :: collapseGo f rest2
    else c :: collapseGo f rest

/-- JavaScript `s.replace(/\s\s+/g, ' ')`. -/
def collapseWs (s : String) : String :=
  String.mk (collapseGo s.data.length s.data)

/-- The backtick character, written numerically. -/
def btick : Char := Char.ofNat 96

/-- One pass of `replace(/```(json)?/g, '')` (a code-fence marker, optionally
followed by the letters json, is deleted; the regular expression prefers the
longer match). Fueled for structural recursion; the fuel never runs out when
initialized with the list length. -/
def fenceGo (fuel : Nat) (l : List Char) : List Char :=
  match fuel, l with
  | 0, l => l
  | _ + 1, [] => []
  | f + 1, c :: rest =>
    match rest with
    | c2 :: c3 :: 'j' :: 's' :: 'o' :: 'n' :: rest2 =>
      if c = btick ∧ c2 = btick ∧ c3 = btick then fenceGo f rest2
      else c :: fenceGo f rest
    | c2 :: c3 :: rest2 =>
      if c = btick ∧ c2 = btick ∧ c3 = btick then fenceGo f rest2
      else c :: fenceGo f rest
    | _ => c :: fenceGo f rest

/-- The model-response cleanup `responseText.replace(/```(json)?/g, '').trim()`
(server.js lines 224 and 236). -/
def stripFencesStr (s : String) : String :=
  trimStr (String.mk (fenceGo s.data.length s.data))

/-- The newline cleanup `replace(/[\n\r]/g, '')` applied before JSON.parse
(server.js lines 228 and 237). -/
def stripNewlinesStr (s : String) : String :=
  String.mk (s.data.filter (fun c => c != '\n' && c != '\r'))

/-- JavaScript String.prototype.split on a single separator character:
`"".split(sep)` is `[""]`, separators at the ends produce empty fields. -/
def splitSepL (sep : Char) : List Char → List (List Char)
  | [] => [[]]
  | c :: rest =>
    if c = sep then [] :: splitSepL sep rest
    else
      match splitSepL sep rest with
      | t :: ts => (c :: t) :: ts
      | [] => [[c]]

/-- JavaScript Array.prototype.join with an arbitrary separator string. -/
def joinSepStr (sep : String) : List String → String
  | [] => ""
  | [x] => x
  | x :: xs => x ++ sep ++ joinSepStr sep xs

/-- Character-list form of `joinSepStr`, used in the injectivity proofs. -/
def joinSepL (sep : List Char) : List (List Char) → List Char
  | [] => []
  | [x] => x
  | x :: xs => x ++ sep ++ joinSepL sep xs

/-- JavaScript `s.substring(0, n)` (by code points in this embedding). -/
def takeChars (n : Nat) (s : String) : String :=
  String.mk (s.data.take n)

/-- Code-point comparison used to embed the default comparator of
Array.prototype.sort (which compares the strings as sequences of code units;
the two orders agree on the Basic Multilingual Plane). -/
def strLeL : List Char → List Char → Bool
  | [], _ => true
  | _ :: _, [] => false
  | a :: as, b :: bs =>
    if a.toNat < b.toNat then true
    else if b.toNat < a.toNat then false
    else strLeL as bs

/-- Lexicographic order on strings for the ingredient sort. -/
def strLe (a b : String) : Bool :=
  strLeL a.data b.data

/-- Insertion step of the embedding of Array.prototype.sort. -/
def insertSorted (x : String) : List String → List String
  | [] => [x]
  | y :: ys => if strLe x y then x :: y :: ys else y :: insertSorted x ys

/-- Embedding of `[...ingredients].sort()`: a sort of the ingredient list under
the default string comparator (any correct sort produces the same list, since
the order is total and antisymmetric). -/
def sortStrings : List String → List String
  | [] => []
  | x :: xs => insertSorted x (sortStrings xs)

-- ## The Canonicalizer (server.js lines 173-176)

/-- A POST /get-recipe request body: the ingredient array and the four optional
constraint fields time, diet, allergies, cookingStyle. -/
structure RecipeRequest where
  ingredients : List String
  time : Option String
  diet : Option String
  allergies : Option String
  cookingStyle : Option String

/-- JavaScript template-literal rendering of a possibly-absent field: an absent
(undefined) value interpolates as the literal text undefined. -/
def renderOpt : Option String → String
  | some s => s
  | none => "undefined"

/-- Line 173: `const sortedIngredients = [...ingredients].sort().join(',')`. -/
def sortedIngredientsStr (ings : List String) : String :=
  joinSepStr "," (sortStrings ings)

/-- Line 174: the template literal joining the four constraint fields with
vertical bars. -/
def customizationString (req : RecipeRequest) : String :=
  renderOpt req.time ++ "|" ++ renderOpt req.diet ++ "|" ++
    renderOpt req.allergies ++ "|" ++ renderOpt req.cookingStyle

/-- Line 175: the pre-hash encoding, ingredient half and constraint half joined
by a number sign. -/
def requestString (req : RecipeRequest) : String :=
  sortedIngredientsStr req.ingredients ++ "#" ++ customizationString req

/-- Line 176: `createHash('sha256').update(requestString).digest('hex')`. The
sha256 digest is an external library call, taken as the parameter `hash`. -/
def uniqueKey (hash : String → String) (req : RecipeRequest) : String :=
  hash (requestString req)

-- ## Order lemmas for the ingredient sort

theorem strLeL_total : ∀ a b : List Char, strLeL a b = true ∨ strLeL b a = true := by
  intro a
  induction a with
  | nil => intro b; left; rfl
  | cons c as ih =>
    intro b
    cases b with
    | nil => right; rfl
    | cons d bs =>
      simp only [strLeL]
      rcases Nat.lt_trichotomy c.toNat d.toNat with h | h | h
      · left; simp [h]
      · have h' : ¬ c.toNat < d.toNat := by omega
        have h'' : ¬ d.toNat < c.toNat := by omega
        rcases ih bs with hl | hr
        · left; simp [h', h'', hl]
        · right; simp [h', h'', hr]
      · right; simp [h]

theorem strLeL_trans : ∀ a b c : List Char,
    strLeL a b = true → strLeL b c = true → strLeL a c = true := by
  intro a
  induction a with
  | nil => intro b c _ _; rfl
  | cons x as ih =>
    intro b c hab hbc
    cases b with
    | nil => simp [strLeL] at hab
    | cons y bs =>
      cases c with
      | nil => simp [strLeL] at hbc
      | cons z cs =>
        simp only [strLeL] at hab hbc ⊢
        rcases Nat.lt_trichotomy x.toNat z.toNat with hxz | hxz | hxz
        · simp [hxz]
        · have hxz1 : ¬ x.toNat < z.toNat := by omega
          have hxz2 : ¬ z.toNat < x.toNat := by omega
          simp only [if_neg hxz1, if_neg hxz2]
          rcases Nat.lt_trichotomy x.toNat y.toNat with hxy | hxy | hxy
          · have h1 : ¬ y.toNat < z.toNat := by omega
            have h2 : z.toNat < y.toNat := by omega
            simp [h1, h2] at hbc
          · have h1 : ¬ x.toNat < y.toNat := by omega
            have h2 : ¬ y.toNat < x.toNat := by omega
            have h3 : ¬ y.toNat < z.toNat := by omega
            have h4 : ¬ z.toNat < y.toNat := by omega
            simp only [if_neg h1, if_neg h2] at hab
            simp only [if_neg h3, if_neg h4] at hbc
            exact ih bs cs hab hbc
          · have h1 : ¬ x.toNat < y.toNat := by omega
            simp [h1, hxy] at hab
        · rcases Nat.lt_trichotomy x.toNat y.toNat with hxy | hxy | hxy
          · rcases Nat.lt_trichotomy y.toNat z.toNat with hyz | hyz | hyz
            · exfalso; omega
            · exfalso; omega
            · have h1 : ¬ y.toNat < z.toNat := by omega
              simp [h1, hyz] at hbc
          · rcases Nat.lt_trichotomy y.toNat z.toNat with hyz | hyz | hyz
            · exfalso; omega
            · exfalso; omega
            · have h1 : ¬ y.toNat < z.toNat := by omega
              simp [h1, hyz] at hbc
          · have h1 : ¬ x.toNat < y.toNat := by omega
            simp [h1, hxy] at hab

theorem strLeL_antisymm : ∀ a b : List Char,
    strLeL a b = true → strLeL b a = true → a = b := by
  intro a
  induction a with
  | nil =>
    intro b _ hba
    cases b with
    | nil => rfl
    | cons d bs => simp [strLeL] at hba
  | cons c as ih =>
    intro b hab hba
    cases b with
    | nil => simp [strLeL] at hab
    | cons d bs =>
      simp only [strLeL] at hab hba
      by_cases h1 : c.toNat < d.toNat
      · have h2 : ¬ d.toNat < c.toNat := by omega
        simp [h1, h2] at hba
      · by_cases h2 : d.toNat < c.toNat
        · simp [h1, h2] at hab
        · have hn : c.toNat = d.toNat := by omega
          have hcd : c = d := Char.ext (UInt32.toNat.inj hn)
          simp only [if_neg h1, if_neg h2] at hab hba
          rw [hcd, ih bs hab hba]

theorem strLe_trans : ∀ a b c : String,
    strLe a b = true → strLe b c = true → strLe a c = true := by
  intro a b c hab hbc
  exact strLeL_trans a.data b.data c.data hab hbc

theorem strLe_total : ∀ a b : String, (strLe a b || strLe b a) = true := by
  intro a b
  rcases strLeL_total a.data b.data with h | h <;> simp [strLe, h]

theorem strLe_antisymm : ∀ a b : String, strLe a b = true → strLe b a = true → a = b := by
  intro a b hab hba
  exact String.ext (strLeL_antisymm a.data b.data hab hba)

instance : IsAntisymm String (fun a b => strLe a b = true) :=
  ⟨strLe_antisymm⟩

theorem insertSorted_perm (x : String) (l : List String) :
    (insertSorted x l).Perm (x :: l) := by
  induction l with
  | nil => simp [insertSorted]
  | cons y ys ih =>
    simp only [insertSorted]
    by_cases h : strLe x y = true
    · rw [if_pos h]
    · rw [if_neg h]
      exact (List.Perm.cons y ih).trans (List.Perm.swap x y ys)

theorem sortStrings_perm (l : List String) : (sortStrings l).Perm l := by
  induction l with
  | nil => simp [sortStrings]
  | cons x xs ih =>
    simp only [sortStrings]
    exact (insertSorted_perm x (sortStrings xs)).trans (List.Perm.cons x ih)

theorem insertSorted_sorted (x : String) (l : List String)
    (hl : List.Sorted (fun a b => strLe a b = true) l) :
    List.Sorted (fun a b => strLe a b = true) (insertSorted x l) := by
  induction l with
  | nil => simp [insertSorted]
  | cons y ys ih =>
    simp only [insertSorted]
    rcases List.sorted_cons.mp hl with ⟨hy, hys⟩
    by_cases h : strLe x y = true
    · rw [if_pos h]
      refine List.sorted_cons.mpr ⟨?_, hl⟩
      intro b hb
      rcases List.mem_cons.mp hb with hb1 | hb1
      · rw [hb1]; exact h
      · exact strLe_trans x y b h (hy b hb1)
    · have hyx : strLe y x = true := by
        have htot := strLe_total x y
        simp [h] at htot
        exact htot
      rw [if_neg h]
      refine List.sorted_cons.mpr ⟨?_, ih hys⟩
      intro b hb
      have hmem : b ∈ x :: ys := (insertSorted_perm x ys).mem_iff.mp hb
      rcases List.mem_cons.mp hmem with hb1 | hb1
      · rw [hb1]; exact hyx
      · exact hy b hb1

theorem sortStrings_sorted (l : List String) :
    List.Sorted (fun a b => strLe a b = true) (sortStrings l) := by
  induction l with
  | nil => simp [sortStrings]
  | cons x xs ih => exact insertSorted_sorted x (sortStrings xs) ih

theorem sortStrings_eq_of_perm {l1 l2 : List String} (h : l1.Perm l2) :
    sortStrings l1 = sortStrings l2 := by
  refine List.eq_of_perm_of_sorted ?_ (sortStrings_sorted l1) (sortStrings_sorted l2)
  exact (sortStrings_perm l1).trans (h.trans (sortStrings_perm l2).symm)

theorem requestString_congr {r1 r2 : RecipeRequest}
    (hperm : r1.ingredients.Perm r2.ingredients)
    (ht : r1.time = r2.time) (hd : r1.diet = r2.diet)
    (ha : r1.allergies = r2.allergies) (hc : r1.cookingStyle = r2.cookingStyle) :
    requestString r1 = requestString r2 := by
  unfold requestString sortedIngredientsStr customizationString
  rw [sortStrings_eq_of_perm hperm, ht, hd, ha, hc]

/-- C2: two requests whose ingredient lists are permutations of each other
(duplicates preserved) and whose four constraint fields agree produce the same
signature, for every digest function. -/
theorem spec_C2_perm_same_signature (hash : String → String) (r1 r2 : RecipeRequest)
    (hperm : r1.ingredients.Perm r2.ingredients)
    (ht : r1.time = r2.time) (hd : r1.diet = r2.diet)
    (ha : r1.allergies = r2.allergies) (hc : r1.cookingStyle = r2.cookingStyle) :
    uniqueKey hash r1 = uniqueKey hash r2 := by
  unfold uniqueKey
  rw [requestString_congr hperm ht hd ha hc]

/-- Witness for C2 at a concrete pair of permuted ingredient lists. -/
theorem spec_C2_witness :
    (["b", "a", "a"] : List String).Perm ["a", "a", "b"] ∧
      uniqueKey (fun s => s) ⟨["b", "a", "a"], some "30", none, none, none⟩ =
        uniqueKey (fun s => s) ⟨["a", "a", "b"], some "30", none, none, none⟩ := by
  have hperm : (["b", "a", "a"] : List String).Perm ["a", "a", "b"] := by
    have h1 : (["b", "a", "a"] : List String).Perm ["a", "b", "a"] :=
      List.Perm.swap "a" "b" ["a"]
    have h2 : (["a", "b", "a"] : List String).Perm ["a", "a", "b"] :=
      List.Perm.cons "a" (List.Perm.swap "a" "b" [])
    exact h1.trans h2
  exact ⟨hperm,
    spec_C2_perm_same_signature (fun s => s) _ _ hperm rfl rfl rfl rfl⟩

/-- C9: an absent constraint field and the literal string undefined render
identically in the pre-hash encoding, so for each of the four fields the two
requests get the same signature under every digest function. -/
theorem spec_C9_absent_equals_literal_undefined (hash : String → String)
    (ings : List String) (t d a c : Option String) :
    uniqueKey hash ⟨ings, none, d, a, c⟩ =
        uniqueKey hash ⟨ings, some "undefined", d, a, c⟩ ∧
      uniqueKey hash ⟨ings, t, none, a, c⟩ =
        uniqueKey hash ⟨ings, t, some "undefined", a, c⟩ ∧
      uniqueKey hash ⟨ings, t, d, none, c⟩ =
        uniqueKey hash ⟨ings, t, d, some "undefined", c⟩ ∧
      uniqueKey hash ⟨ings, t, d, a, none⟩ =
        uniqueKey hash ⟨ings, t, d, a, some "undefined"⟩ := by
  exact ⟨rfl, rfl, rfl, rfl⟩

-- ## Injectivity of the pre-hash encoding under delimiter-safety conditions

theorem seam_split (sep : Char) : ∀ (a b u v : List Char), sep ∉ a → sep ∉ b →
    a ++ sep :: u = b ++ sep :: v → a = b ∧ u = v := by
  intro a
  induction a with
  | nil =>
    intro b u v _ hb heq
    cases b with
    | nil => simpa using heq
    | cons d bs =>
      simp only [List.nil_append, List.cons_append] at heq
      injection heq with h1 h2
      exfalso
      apply hb
      rw [h1]
      exact List.mem_cons_self d bs
  | cons c as ih =>
    intro b u v ha hb heq
    cases b with
    | nil =>
      simp only [List.cons_append, List.nil_append] at heq
      injection heq with h1 h2
      exfalso
      apply ha
      rw [← h1]
      exact List.mem_cons_self c as
    | cons d bs =>
      simp only [List.cons_append] at heq
      injection heq with h1 h2
      have hsa : sep ∉ as := fun hm => ha (List.mem_cons_of_mem c hm)
      have hsb : sep ∉ bs := fun hm => hb (List.mem_cons_of_mem d hm)
      rcases ih bs u v hsa hsb h2 with ⟨he1, he2⟩
      exact ⟨by rw [h1, he1], he2⟩

theorem notMem_joinSepL (c sep : Char) (hcs : c ≠ sep) :
    ∀ l : List (List Char), (∀ x ∈ l, c ∉ x) → c ∉ joinSepL [sep] l := by
  intro l
  induction l with
  | nil => intro _; simp [joinSepL]
  | cons x xs ih =>
    intro hl
    cases xs with
    | nil =>
      simp only [joinSepL]
      exact hl x (List.mem_cons_self x [])
    | cons y ys =>
      simp only [joinSepL]
      intro hmem
      rcases List.mem_append.mp hmem with hm | hm
      · rcases List.mem_append.mp hm with hm1 | hm1
        · exact hl x (List.mem_cons_self x (y :: ys)) hm1
        · simp at hm1
          exact hcs hm1
      · exact ih (fun z hz => hl z (List.mem_cons_of_mem x hz)) hm

theorem joinSepL_inj (sep : Char) : ∀ xs ys : List (List Char), xs ≠ [] → ys ≠ [] →
    (∀ x ∈ xs, sep ∉ x) → (∀ y ∈ ys, sep ∉ y) →
    joinSepL [sep] xs = joinSepL [sep] ys → xs = ys := by
  intro xs
  induction xs with
  | nil => intro ys h; exact absurd rfl h
  | cons x xs2 ih =>
    intro ys _ hysne hx hy heq
    cases ys with
    | nil => exact absurd rfl hysne
    | cons y ys2 =>
      cases xs2 with
      | nil =>
        cases ys2 with
        | nil =>
          simp only [joinSepL] at heq
          rw [heq]
        | cons z zs =>
          simp only [joinSepL] at heq
          exfalso
          apply hx x (List.mem_cons_self x [])
          rw [heq]
          simp
      | cons w ws =>
        cases ys2 with
        | nil =>
          simp only [joinSepL] at heq
          exfalso
          apply hy y (List.mem_cons_self y [])
          rw [← heq]
          simp
        | cons z zs =>
          simp only [joinSepL] at heq
          have heq' : x ++ sep :: joinSepL [sep] (w :: ws) =
              y ++ sep :: joinSepL [sep] (z :: zs) := by
            simpa [List.append_assoc] using heq
          rcases seam_split sep x y _ _ (hx x (List.mem_cons_self x (w :: ws)))
            (hy y (List.mem_cons_self y (z :: zs))) heq' with ⟨h1, h2⟩
          have htail := ih (z :: zs) (by simp) (by simp)
            (fun a ha => hx a (List.mem_cons_of_mem x ha))
            (fun a ha => hy a (List.mem_cons_of_mem y ha)) h2
          rw [h1, htail]

theorem comma_data : ("," : String).data = [','] := rfl

theorem bar_data : ("|" : String).data = ['|'] := rfl

theorem numbersign_data : ("#" : String).data = ['#'] := rfl

theorem joinSepStr_data (sep : String) : ∀ l : List String,
    (joinSepStr sep l).data = joinSepL sep.data (l.map String.data) := by
  intro l
  induction l with
  | nil => rfl
  | cons x xs ih =>
    cases xs with
    | nil => rfl
    | cons y ys =>
      simp only [joinSepStr, joinSepL, List.map_cons]
      rw [String.data_append, String.data_append, ih]
      simp [List.map_cons, joinSepL]

/-- Safety condition on a supplied constraint value: it contains neither the
vertical-bar nor the number-sign delimiter and is not the literal text
undefined (the placeholder the template literal uses for absent fields). -/
def SafeVal : Option String → Prop
  | none => True
  | some v => '|' ∉ v.data ∧ '#' ∉ v.data ∧ v ≠ "undefined"

/-- Safety condition on a request: non-empty ingredient list, no ingredient
containing the comma or number-sign delimiters, and all four constraint values
safe. Under these conditions the pre-hash encoding is injective. -/
def SafeReq (r : RecipeRequest) : Prop :=
  r.ingredients ≠ [] ∧
  (∀ s ∈ r.ingredients, ',' ∉ s.data ∧ '#' ∉ s.data) ∧
  SafeVal r.time ∧ SafeVal r.diet ∧ SafeVal r.allergies ∧ SafeVal r.cookingStyle

instance (o : Option String) : Decidable (SafeVal o) := by
  cases o with
  | none => exact isTrue trivial
  | some v =>
    exact inferInstanceAs (Decidable ('|' ∉ v.data ∧ '#' ∉ v.data ∧ v ≠ "undefined"))

instance (r : RecipeRequest) : Decidable (SafeReq r) := by
  unfold SafeReq
  infer_instance

theorem renderOpt_nobar (o : Option String) (ho : SafeVal o) :
    '|' ∉ (renderOpt o).data := by
  cases o with
  | none => decide
  | some v => exact ho.1

theorem renderOpt_nonumbersign (o : Option String) (ho : SafeVal o) :
    '#' ∉ (renderOpt o).data := by
  cases o with
  | none => decide
  | some v => exact ho.2.1

theorem renderOpt_inj {a b : Option String} (ha : SafeVal a) (hb : SafeVal b)
    (h : renderOpt a = renderOpt b) : a = b := by
  cases a with
  | none =>
    cases b with
    | none => rfl
    | some w =>
      exact absurd h.symm hb.2.2
  | some v =>
    cases b with
    | none => exact absurd h ha.2.2
    | some w => rw [show v = w from h]

theorem customizationString_data (r : RecipeRequest) :
    (customizationString r).data =
      (renderOpt r.time).data ++ '|' :: ((renderOpt r.diet).data ++ '|' ::
        ((renderOpt r.allergies).data ++ '|' :: (renderOpt r.cookingStyle).data)) := by
  simp [customizationString, String.data_append, bar_data, List.append_assoc]

theorem requestString_data (r : RecipeRequest) :
    (requestString r).data =
      joinSepL [','] ((sortStrings r.ingredients).map String.data) ++
        '#' :: (customizationString r).data := by
  simp only [requestString, sortedIngredientsStr, String.data_append,
    joinSepStr_data, comma_data, numbersign_data, List.append_assoc]
  simp

/-- C3 (amended): for requests satisfying the delimiter-safety conditions the
pre-hash encoding is injective, so any difference in ingredient multiset or in
any constraint field yields a different encoding and hence a different
signature up to hash collision. -/
theorem spec_C3_encoding_injective (r1 r2 : RecipeRequest)
    (h1 : SafeReq r1) (h2 : SafeReq r2)
    (heq : requestString r1 = requestString r2) :
    r1.ingredients.Perm r2.ingredients ∧ r1.time = r2.time ∧ r1.diet = r2.diet ∧
      r1.allergies = r2.allergies ∧ r1.cookingStyle = r2.cookingStyle := by
  obtain ⟨hne1, hing1, ht1, hd1, ha1, hc1⟩ := h1
  obtain ⟨hne2, hing2, ht2, hd2, ha2, hc2⟩ := h2
  have hdata : (requestString r1).data = (requestString r2).data := by rw [heq]
  rw [requestString_data, requestString_data] at hdata
  have hnotA1 : '#' ∉ joinSepL [','] ((sortStrings r1.ingredients).map String.data) := by
    apply notMem_joinSepL _ _ (by decide)
    intro x hx
    rcases List.mem_map.mp hx with ⟨s, hs, rfl⟩
    exact (hing1 s ((sortStrings_perm r1.ingredients).subset hs)).2
  have hnotA2 : '#' ∉ joinSepL [','] ((sortStrings r2.ingredients).map String.data) := by
    apply notMem_joinSepL _ _ (by decide)
    intro x hx
    rcases List.mem_map.mp hx with ⟨s, hs, rfl⟩
    exact (hing2 s ((sortStrings_perm r2.ingredients).subset hs)).2
  rcases seam_split '#' _ _ _ _ hnotA1 hnotA2 hdata with ⟨hA, hB⟩
  have hmapne1 : (sortStrings r1.ingredients).map String.data ≠ [] := by
    intro hnil
    have hlen := congrArg List.length hnil
    rw [List.length_map, (sortStrings_perm r1.ingredients).length_eq] at hlen
    exact hne1 (List.eq_nil_of_length_eq_zero hlen)
  have hmapne2 : (sortStrings r2.ingredients).map String.data ≠ [] := by
    intro hnil
    have hlen := congrArg List.length hnil
    rw [List.length_map, (sortStrings_perm r2.ingredients).length_eq] at hlen
    exact hne2 (List.eq_nil_of_length_eq_zero hlen)
  have hmapeq : (sortStrings r1.ingredients).map String.data =
      (sortStrings r2.ingredients).map String.data := by
    apply joinSepL_inj ',' _ _ hmapne1 hmapne2 ?_ ?_ hA
    · intro x hx
      rcases List.mem_map.mp hx with ⟨s, hs, rfl⟩
      exact (hing1 s ((sortStrings_perm r1.ingredients).subset hs)).1
    · intro x hx
      rcases List.mem_map.mp hx with ⟨s, hs, rfl⟩
      exact (hing2 s ((sortStrings_perm r2.ingredients).subset hs)).1
  have hsorteq : sortStrings r1.ingredients = sortStrings r2.ingredients := by
    have hinj : Function.Injective String.data := fun a b hab => String.ext hab
    exact List.map_injective_iff.mpr hinj hmapeq
  have hpermi : r1.ingredients.Perm r2.ingredients :=
    ((sortStrings_perm r1.ingredients).symm.trans
      (hsorteq ▸ sortStrings_perm r2.ingredients))
  rw [customizationString_data, customizationString_data] at hB
  rcases seam_split '|' _ _ _ _ (renderOpt_nobar r1.time ht1)
    (renderOpt_nobar r2.time ht2) hB with ⟨hTime, hB2⟩
  rcases seam_split '|' _ _ _ _ (renderOpt_nobar r1.diet hd1)
    (renderOpt_nobar r2.diet hd2) hB2 with ⟨hDiet, hB3⟩
  rcases seam_split '|' _ _ _ _ (renderOpt_nobar r1.allergies ha1)
    (renderOpt_nobar r2.allergies ha2) hB3 with ⟨hAll, hStyle⟩
  refine ⟨hpermi, ?_, ?_, ?_, ?_⟩
  · exact renderOpt_inj ht1 ht2 (String.ext hTime)
  · exact renderOpt_inj hd1 hd2 (String.ext hDiet)
  · exact renderOpt_inj ha1 ha2 (String.ext hAll)
  · exact renderOpt_inj hc1 hc2 (String.ext hStyle)

/-- Requests used to refute C3 as stated: the time field differs (absent
versus the literal string undefined) yet the encodings coincide. -/
def reqUndefA : RecipeRequest := ⟨["a"], some "undefined", none, none, none⟩

/-- Companion request for the C3 counterexample, with the time field absent. -/
def reqUndefB : RecipeRequest := ⟨["a"], none, none, none, none⟩

/-- C3 counterexample: two requests that differ in exactly one constraint field
(present as the literal text undefined versus absent) have equal pre-hash
encodings, hence equal signatures under the (deterministic) digest — the claim
that any single-field difference changes the signature is false. -/
theorem spec_C3_counterexample :
    reqUndefA.time ≠ reqUndefB.time ∧
      reqUndefA.ingredients = reqUndefB.ingredients ∧
      reqUndefA.diet = reqUndefB.diet ∧
      reqUndefA.allergies = reqUndefB.allergies ∧
      reqUndefA.cookingStyle = reqUndefB.cookingStyle ∧
      requestString reqUndefA = requestString reqUndefB := by
  refine ⟨by decide, rfl, rfl, rfl, rfl, rfl⟩

/-- Request used in the witness of the amended C3. -/
def reqSafeW : RecipeRequest :=
  ⟨["pepper", "salt"], some "30 min", none, some "nuts", none⟩

/-- Witness for the amended C3 at a concrete safe request. -/
theorem spec_C3_encoding_injective_witness :
    reqSafeW.ingredients.Perm reqSafeW.ingredients ∧
      reqSafeW.time = reqSafeW.time ∧ reqSafeW.diet = reqSafeW.diet ∧
      reqSafeW.allergies = reqSafeW.allergies ∧
      reqSafeW.cookingStyle = reqSafeW.cookingStyle :=
  spec_C3_encoding_injective reqSafeW reqSafeW (by decide) (by decide) rfl

-- ## JavaScript values, as produced by JSON.parse and inspected by the handlers

/-- A JavaScript value: what JSON.parse can return, together with undefined,
which property access on a missing key produces. -/
inductive JsVal where
  | undefined
  | null
  | bool (b : Bool)
  | num (n : Int)
  | str (s : String)
  | arr (xs : List JsVal)
  | obj (fields : List (String × JsVal))

/-- JavaScript property access `v[k]`: the field of an object, undefined on a
missing key or a non-object (access on null or undefined throws and is handled
separately at each use site). -/
def getField (v : JsVal) (k : String) : JsVal :=
  match v with
  | .obj fs =>
    match fs.find? (fun p => p.1 == k) with
    | some p => p.2
    | none => .undefined
  | _ => .undefined

/-- JavaScript truthiness: undefined, null, false, 0 and the empty string are
falsy, everything else (including an empty array) is truthy. -/
def truthy : JsVal → Bool
  | .undefined => false
  | .null => false
  | .bool b => b
  | .num n => n != 0
  | .str s => s != ""
  | .arr _ => true
  | .obj _ => true

/-- Whether an object carries the given top-level key. -/
def hasField (v : JsVal) (k : String) : Bool :=
  match v with
  | .obj fs => fs.any (fun p => p.1 == k)
  | _ => false

/-- Values on which property access throws a TypeError. -/
def isNullish : JsVal → Bool
  | .null => true
  | .undefined => true
  | _ => false

-- ## The Structured Extractor (server.js lines 82-98)

/-- Line 88: the item type is the string Recipe, or an array containing it. -/
def typeIsRecipe (item : JsVal) : Bool :=
  match getField item "@type" with
  | .str s => s == "Recipe"
  | .arr xs =>
    xs.any (fun x =>
      match x with
      | .str s => s == "Recipe"
      | _ => false)
  | _ => false

/-- Line 85: `const graph = json['@graph'] || [json]`, followed by for-of
iteration. A truthy non-iterable graph value makes the for-of throw (the block
is then skipped); a string graph iterates its code points as one-character
strings. -/
def graphOf (json : JsVal) : Option (List JsVal) :=
  let g := getField json "@graph"
  if truthy g then
    match g with
    | .arr xs => some xs
    | .str s => some (s.data.map (fun c => JsVal.str (String.mk [c])))
    | _ => none
  else some [json]

/-- Lines 87-94: scan the items of one block in order; error means a thrown
TypeError (property access on a null or undefined item), ok none means no
match in this block, ok (some xs) means the first Recipe-typed item carrying
an array-valued recipeIngredient was found — the assignment happens even when
that array is empty, and the scan stops. -/
def scanItems : List JsVal → Except Unit (Option (List JsVal))
  | [] => .ok none
  | item :: rest =>
    if isNullish item then .error ()
    else if typeIsRecipe item then
      match getField item "recipeIngredient" with
      | .arr xs => .ok (some xs)
      | _ => scanItems rest
    else scanItems rest

/-- Lines 83-97: parse one script block (JSON.parse is the oracle `parse`,
returning none when it throws) and scan it; any failure inside the try block
is ignored and scanning moves to the next block. -/
def scanBlock (parse : String → Option JsVal) (block : String) : Option (List JsVal) :=
  match parse block with
  | none => none
  | some json =>
    if isNullish json then none
    else
      match graphOf json with
      | none => none
      | some items =>
        match scanItems items with
        | .error _ => none
        | .ok r => r

/-- Line 82: the each-loop over the structured-data script blocks in document
order, stopping (return false) as soon as one block assigns the ingredient
array. -/
def extractFromBlocks (parse : String → Option JsVal) : List String → List JsVal
  | [] => []
  | b :: rest =>
    match scanBlock parse b with
    | some xs => xs
    | none => extractFromBlocks parse rest

/-- Line 102: `ing.replace(/\s\s+/g, ' ').trim()`. -/
def cleanIngredient (s : String) : String :=
  trimStr (collapseWs s)

/-- Line 102: the cleaning map over the extracted items; a non-string item has
no replace method, the thrown TypeError surfaces as the catch-all 500. -/
def cleanAll : List JsVal → Option (List String)
  | [] => some []
  | .str s :: rest => (cleanAll rest).map (fun tl => cleanIngredient s :: tl)
  | _ :: _ => none

-- ## The scrape endpoint (server.js lines 65-134)

/-- A fetched HTML document at the interface boundary of the HTML library:
the contents of the script blocks tagged application/ld+json in document
order, and the text of the body after `$('script, style').remove()` (the
stripping itself is the external facility). -/
structure ScrapeDoc where
  ldJsonBlocks : List String
  visibleText : String

/-- HTTP outcome of POST /scrape-recipe. -/
inductive ScrapeResponse where
  | ok (ingredients : List String)
  | badRequest (msg : String)
  | serverError (msg : String)

/-- Line 108: `$('body').text().replace(/\s\s+/g, ' ').trim()`. -/
def pageTextOf (doc : ScrapeDoc) : String :=
  trimStr (collapseWs doc.visibleText)

/-- Line 117: the fixed text of the fallback extraction prompt up to the
truncated page text. -/
def fallbackPromptHead : String :=
  "From the following website text, extract only the cooking ingredients. List them in a single line, separated by commas. Ignore all other text like instructions, titles, and comments.\n\nWebsite Text:\n"

/-- Line 127: `split(',').map(item => item.trim()).filter(Boolean)`. -/
def splitTrim (t : String) : List String :=
  ((splitSepL ',' t.data).map (fun l => String.mk (trimL l))).filter (fun s => s != "")

/-- The POST /scrape-recipe handler after a successful page fetch. `parse` is
JSON.parse, `ai` maps a prompt to the text of the first candidate of the
generative endpoint (none when that field is absent). The second component
lists the prompts sent to the generative endpoint. -/
def scrapeHandler (parse : String → Option JsVal) (ai : String → Option String)
    (doc : ScrapeDoc) : ScrapeResponse × List String :=
  if 0 < (extractFromBlocks parse doc.ldJsonBlocks).length then
    match cleanAll (extractFromBlocks parse doc.ldJsonBlocks) with
    | some cleaned => (.ok cleaned, [])
    | none =>
      (.serverError "Failed to scrape recipe. The website may be blocking requests or the URL is invalid.",
        [])
  else
    if pageTextOf doc = "" then
      (.badRequest "Could not extract any text from the provided URL.", [])
    else
      match ai (fallbackPromptHead ++ takeChars 15000 (pageTextOf doc)) with
      | none =>
        (.serverError "AI could not identify ingredients from the website content.",
          [fallbackPromptHead ++ takeChars 15000 (pageTextOf doc)])
      | some ingredientsText =>
        if ingredientsText = "" then
          (.serverError "AI could not identify ingredients from the website content.",
            [fallbackPromptHead ++ takeChars 15000 (pageTextOf doc)])
        else
          (.ok (splitTrim ingredientsText),
            [fallbackPromptHead ++ takeChars 15000 (pageTextOf doc)])

-- ## Claims about the extraction pipeline

/-- C4 (amended): the structured scan proceeds in document order, a block whose
scan fails (in particular one that fails to parse) is skipped, and the scan
stops at the first Recipe-typed item carrying an array-valued recipeIngredient
(even an empty one); when the extraction yields a non-empty list of strings,
the handler answers 200 with the whitespace-collapsed, trimmed strings and
the text fallback is never invoked (no prompt is sent). -/
theorem spec_C4_first_match_scan :
    (∀ parse b rest, scanBlock parse b = none →
      extractFromBlocks parse (b :: rest) = extractFromBlocks parse rest) ∧
    (∀ parse b rest xs, scanBlock parse b = some xs →
      extractFromBlocks parse (b :: rest) = xs) ∧
    (∀ (parse : String → Option JsVal) b, parse b = none → scanBlock parse b = none) ∧
    (∀ parse ai doc ing ings cleaned,
      extractFromBlocks parse doc.ldJsonBlocks = ing :: ings →
      cleanAll (ing :: ings) = some cleaned →
      scrapeHandler parse ai doc = (.ok cleaned, [])) := by
  refine ⟨?_, ?_, ?_, ?_⟩
  · intro parse b rest h
    simp only [extractFromBlocks]
    rw [h]
  · intro parse b rest xs h
    simp only [extractFromBlocks]
    rw [h]
  · intro parse b h
    simp only [scanBlock]
    rw [h]
  · intro parse ai doc ing ings cleaned hext hclean
    unfold scrapeHandler
    rw [hext, hclean]
    simp

/-- JSON-LD block whose Recipe item has an empty recipeIngredient array. -/
def blkEmptyIng : String :=
  "\x7b\"@type\":\"Recipe\",\"recipeIngredient\":[]\x7d"

/-- JSON-LD block whose Recipe item has a non-empty recipeIngredient array. -/
def blkFullIng : String :=
  "\x7b\"@type\":\"Recipe\",\"recipeIngredient\":[\"flour\"]\x7d"

/-- JSON.parse on the two concrete blocks of the C4 counterexample. -/
def parseCE : String → Option JsVal := fun s =>
  if s = blkEmptyIng then
    some (JsVal.obj [("@type", JsVal.str "Recipe"), ("recipeIngredient", JsVal.arr [])])
  else if s = blkFullIng then
    some (JsVal.obj
      [("@type", JsVal.str "Recipe"), ("recipeIngredient", JsVal.arr [JsVal.str "flour"])])
  else none

/-- Document of the C4 counterexample: the empty-array Recipe block comes
before the non-empty one. -/
def docCE : ScrapeDoc := ⟨[blkEmptyIng, blkFullIng], "Mix flour and water."⟩

/-- Generative oracle of the C4 counterexample. -/
def aiCE : String → Option String := fun _ => some "flour, water"

/-- C4 counterexample: the document contains a Recipe-typed block with a
non-empty ingredient list (the second block would yield it), yet the scan
stops at the earlier Recipe item whose recipeIngredient array is empty,
returns the empty extraction, and the text fallback IS invoked (one prompt is
sent) — refuting the claim that the scan stops only at a non-empty list and
that the fallback is never invoked when a non-empty Recipe item exists. -/
theorem spec_C4_counterexample :
    extractFromBlocks parseCE docCE.ldJsonBlocks = [] ∧
      scanBlock parseCE blkFullIng = some [JsVal.str "flour"] ∧
      (scrapeHandler parseCE aiCE docCE).2.length = 1 := by
  exact ⟨rfl, rfl, rfl⟩

/-- JSON.parse oracle for the C4 witness: the first block is unparseable, the
second holds the Recipe of the specification example. -/
def parseW4 : String → Option JsVal := fun s =>
  if s = "not json" then none
  else if s = "recipe block" then
    some (JsVal.obj
      [("@type", JsVal.str "Recipe"),
       ("recipeIngredient", JsVal.arr [JsVal.str "1 cup flour", JsVal.str "  2  eggs "])])
  else none

/-- Document of the C4 witness. -/
def docW4 : ScrapeDoc := ⟨["not json", "recipe block"], "irrelevant body"⟩

/-- Generative oracle of the C4 witness (never consulted). -/
def aiW4 : String → Option String := fun _ => some "unused"

/-- Witness for the amended C4: the unparseable block is skipped, the Recipe
block stops the scan, and the handler returns the cleaned strings of the
specification example with no prompt sent. -/
theorem spec_C4_first_match_scan_witness :
    extractFromBlocks parseW4 docW4.ldJsonBlocks =
        extractFromBlocks parseW4 ["recipe block"] ∧
      extractFromBlocks parseW4 ["recipe block"] =
        [JsVal.str "1 cup flour", JsVal.str "  2  eggs "] ∧
      scanBlock parseW4 "not json" = none ∧
      scrapeHandler parseW4 aiW4 docW4 = (.ok ["1 cup flour", "2 eggs"], []) := by
  refine ⟨?_, ?_, ?_, ?_⟩
  · exact spec_C4_first_match_scan.1 parseW4 "not json" ["recipe block"] rfl
  · exact spec_C4_first_match_scan.2.1 parseW4 "recipe block" []
      [JsVal.str "1 cup flour", JsVal.str "  2  eggs "] rfl
  · exact spec_C4_first_match_scan.2.2.1 parseW4 "not json" rfl
  · exact spec_C4_first_match_scan.2.2.2 parseW4 aiW4 docW4
      (JsVal.str "1 cup flour") [JsVal.str "  2  eggs "] ["1 cup flour", "2 eggs"] rfl rfl

/-- C6: the text fallback runs only when the structured extraction is empty
(no prompt is sent otherwise); with an empty extraction and empty flattened
page text the handler answers 400; otherwise the single prompt contains the
15000-character prefix of the collapsed page text, and a non-empty model
response is split on commas, trimmed, and cleared of empty tokens. -/
theorem spec_C6_fallback_pipeline :
    ∀ parse ai doc,
      (extractFromBlocks parse doc.ldJsonBlocks ≠ [] →
        (scrapeHandler parse ai doc).2 = []) ∧
      (extractFromBlocks parse doc.ldJsonBlocks = [] → pageTextOf doc = "" →
        scrapeHandler parse ai doc =
          (.badRequest "Could not extract any text from the provided URL.", [])) ∧
      (extractFromBlocks parse doc.ldJsonBlocks = [] → pageTextOf doc ≠ "" →
        (scrapeHandler parse ai doc).2 =
            [fallbackPromptHead ++ takeChars 15000 (pageTextOf doc)] ∧
          ∀ t, ai (fallbackPromptHead ++ takeChars 15000 (pageTextOf doc)) = some t →
            t ≠ "" → (scrapeHandler parse ai doc).1 = .ok (splitTrim t)) := by
  intro parse ai doc
  refine ⟨?_, ?_, ?_⟩
  · intro h
    unfold scrapeHandler
    rw [if_pos (List.length_pos.mpr h)]
    cases hcl : cleanAll (extractFromBlocks parse doc.ldJsonBlocks) <;> rfl
  · intro h hp
    unfold scrapeHandler
    rw [h]
    simp [hp]
  · intro h hp
    unfold scrapeHandler
    rw [h]
    simp only [List.length_nil, lt_irrefl, if_false, if_neg hp]
    constructor
    · cases hai : ai (fallbackPromptHead ++ takeChars 15000 (pageTextOf doc)) with
      | none => rfl
      | some t => by_cases ht : t = "" <;> simp [ht]
    · intro t hai ht
      rw [hai]
      simp [ht]

/-- JSON.parse oracle that fails on every block (used by the C6 witness). -/
def parseNone6 : String → Option JsVal := fun _ => none

/-- JSON.parse oracle with one Recipe block (used by the C6 witness). -/
def parseR6 : String → Option JsVal := fun s =>
  if s = "R" then
    some (JsVal.obj
      [("@type", JsVal.str "Recipe"), ("recipeIngredient", JsVal.arr [JsVal.str "salt"])])
  else none

/-- Generative oracle of the C6 witness, answering the specification example. -/
def ai6 : String → Option String := fun _ => some "eggs, flour"

/-- Document with a structured Recipe block (C6 witness, no-fallback clause). -/
def docR6 : ScrapeDoc := ⟨["R"], "body text"⟩

/-- Document with no structured data and whitespace-only body (C6 witness,
400 clause). -/
def docEmpty6 : ScrapeDoc := ⟨[], "   "⟩

/-- Document with no structured data and the body text of the specification
example (C6 witness, fallback clause). -/
def docFall6 : ScrapeDoc := ⟨[], "Mix 2 eggs, 1 cup flour and bake."⟩

/-- Witness for C6 at the three concrete documents. -/
theorem spec_C6_fallback_pipeline_witness :
    (scrapeHandler parseR6 ai6 docR6).2 = [] ∧
      scrapeHandler parseNone6 ai6 docEmpty6 =
        (.badRequest "Could not extract any text from the provided URL.", []) ∧
      (scrapeHandler parseNone6 ai6 docFall6).1 = .ok ["eggs", "flour"] := by
  refine ⟨?_, ?_, ?_⟩
  · refine (spec_C6_fallback_pipeline parseR6 ai6 docR6).1 ?_
    have hx : extractFromBlocks parseR6 docR6.ldJsonBlocks = [JsVal.str "salt"] := rfl
    rw [hx]
    exact List.cons_ne_nil _ _
  · exact (spec_C6_fallback_pipeline parseNone6 ai6 docEmpty6).2.1 rfl rfl
  · exact ((spec_C6_fallback_pipeline parseNone6 ai6 docFall6).2.2 rfl
      (by decide)).2 "eggs, flour" rfl (by decide)

/-- C10: on the fallback path the no-ingredients 500 is returned precisely
when the model response text is absent or empty; a non-empty response is
tokenized, and in particular a response of only commas and whitespace yields
a 200 with an empty ingredient array. -/
theorem spec_C10_no_ingredients_iff :
    ∀ parse ai doc,
      extractFromBlocks parse doc.ldJsonBlocks = [] →
      pageTextOf doc ≠ "" →
      (((scrapeHandler parse ai doc).1 =
          .serverError "AI could not identify ingredients from the website content.") ↔
        (ai (fallbackPromptHead ++ takeChars 15000 (pageTextOf doc)) = none ∨
          ai (fallbackPromptHead ++ takeChars 15000 (pageTextOf doc)) = some "")) ∧
      (∀ t, ai (fallbackPromptHead ++ takeChars 15000 (pageTextOf doc)) = some t →
        t ≠ "" → (scrapeHandler parse ai doc).1 = .ok (splitTrim t)) ∧
      (∀ t, ai (fallbackPromptHead ++ takeChars 15000 (pageTextOf doc)) = some t →
        t ≠ "" → splitTrim t = [] → (scrapeHandler parse ai doc).1 = .ok []) := by
  intro parse ai doc h hp
  have hbase : ∀ t, ai (fallbackPromptHead ++ takeChars 15000 (pageTextOf doc)) = some t →
      t ≠ "" → (scrapeHandler parse ai doc).1 = .ok (splitTrim t) := by
    intro t hai ht
    unfold scrapeHandler
    rw [h]
    simp only [List.length_nil, lt_irrefl, if_false, if_neg hp]
    rw [hai]
    simp [ht]
  refine ⟨?_, hbase, ?_⟩
  · constructor
    · intro hresp
      cases hai : ai (fallbackPromptHead ++ takeChars 15000 (pageTextOf doc)) with
      | none => exact Or.inl rfl
      | some t =>
        by_cases ht : t = ""
        · refine Or.inr ?_
          rw [← ht]
        · exfalso
          have := hbase t hai ht
          rw [this] at hresp
          exact ScrapeResponse.noConfusion hresp
    · intro hai
      unfold scrapeHandler
      rw [h]
      simp only [List.length_nil, lt_irrefl, if_false, if_neg hp]
      rcases hai with hai | hai
      · rw [hai]
      · rw [hai]
        simp
  · intro t hai ht hsplit
    have := hbase t hai ht
    rw [hsplit] at this
    exact this

/-- JSON.parse oracle of the C10 witness. -/
def parse10 : String → Option JsVal := fun _ => none

/-- Generative oracle returning no text (C10 witness, 500 clause). -/
def aiNone10 : String → Option String := fun _ => none

/-- Generative oracle returning only commas and whitespace (C10 witness,
empty-200 clause). -/
def aiCommas10 : String → Option String := fun _ => some " ,, "

/-- Document of the C10 witness. -/
def doc10 : ScrapeDoc := ⟨[], "Some page text"⟩

/-- Witness for C10: the absent response text produces the no-ingredients 500,
and a commas-and-whitespace response produces 200 with an empty array. -/
theorem spec_C10_no_ingredients_iff_witness :
    (scrapeHandler parse10 aiNone10 doc10).1 =
        .serverError "AI could not identify ingredients from the website content." ∧
      (scrapeHandler parse10 aiCommas10 doc10).1 = .ok [] := by
  constructor
  · exact ((spec_C10_no_ingredients_iff parse10 aiNone10 doc10 rfl
      (by decide)).1).mpr (Or.inl rfl)
  · exact (spec_C10_no_ingredients_iff parse10 aiCommas10 doc10 rfl
      (by decide)).2.2 " ,, " rfl (by decide) (by decide)

-- ## The Firestore-backed record store and POST /get-recipe (lines 165-265)

/-- Constraint snapshot stored with a record (line 250). -/
structure Customization where
  time : Option String
  diet : Option String
  allergies : Option String
  cookingStyle : Option String

/-- A document of the recipes collection together with its identifier. -/
structure StoredRecord where
  id : Nat
  ingredients : List String
  recipe : JsVal
  nutrition : JsVal
  createdAt : Nat
  customization : Customization
  isFavourite : Bool
  generationCount : Nat
  uniqueKey : String

/-- The recipes collection: its documents and a counter supplying the next
store-assigned identifier. -/
structure Store where
  records : List StoredRecord
  nextId : Nat

/-- Line 179: `where('uniqueKey', '==', key).limit(1)` — the single-result
filtered query. -/
def findByKey (store : Store) (key : String) : Option StoredRecord :=
  store.records.find? (fun r => r.uniqueKey == key)

/-- Document lookup by identifier (`recipesCollection.doc(id).get()`). -/
def findById (store : Store) (rid : Nat) : Option StoredRecord :=
  store.records.find? (fun r => r.id == rid)

/-- Lines 187-189: the atomic `FieldValue.increment(1)` on generationCount. -/
def touch (store : Store) (rid : Nat) : Store :=
  { store with
    records := store.records.map
      (fun r => if r.id == rid then { r with generationCount := r.generationCount + 1 } else r) }

/-- Store sanity invariant maintained by Firestore: document identifiers are
distinct and below the fresh-id counter. -/
def StoreWf (store : Store) : Prop :=
  (store.records.map (fun r => r.id)).Nodup ∧
    ∀ r ∈ store.records, r.id < store.nextId

/-- Failure cause surfaced by the catch of the /get-recipe handler as a 500
(the JavaScript message interpolates the thrown error). -/
inductive GenFailure where
  | aiResponseShape
  | unrepairedJson
  | missingData
  | storeReadFailed

/-- HTTP outcome of POST /get-recipe. -/
inductive GenResponse where
  | ok (rec : StoredRecord)
  | badRequest (msg : String)
  | serverError (e : GenFailure)

/-- Lines 200-213: the fixed synthesis prompt text up to the ingredient list. -/
def basePromptText : String :=
  "Analyze the following request and return a valid JSON object with two top-level keys: \"recipe\" and \"nutrition\".\n- The \"nutrition\" value must be a JSON object with keys for \"calories\", \"protein\", \"carbs\", and \"fat\". Additionally, include keys for \"vitaminC\", \"iron\", and \"calcium\" if they are present in significant amounts. Each key\x27s value must be an object with \"value\" (a number) and \"unit\" (a string, e.g., \"g\", \"mg\", \"kcal\").\n- The \"recipe\" value must ALSO BE A JSON OBJECT with the following keys:\n  - \"title\": A string for the recipe title.\n  - \"description\": A short, engaging one-sentence string describing the dish.\n  - \"prepTime\": A string for preparation time (e.g., \"15 minutes\").\n  - \"cookTime\": A string for cooking time (e.g., \"30 minutes\").\n  - \"servings\": A string for the number of servings (e.g., \"4 servings\").\n  - \"ingredients\": An array of strings, with each string being one ingredient and its quantity.\n  - \"instructions\": An array of strings, with each string being one step in the recipe.\n\nRecipe Request Details:\n- Ingredients: "

/-- Line 215: `if (time && time !== 'Any')` appends the max-cooking-time line. -/
def addTimeLine (p : String) : Option String → String
  | some t => if t != "" && t != "Any" then p ++ "- Max Cooking Time: " ++ t ++ "\n" else p
  | none => p

/-- Line 216: `if (diet && diet !== 'None')` appends the dietary line. -/
def addDietLine (p : String) : Option String → String
  | some d => if d != "" && d != "None" then p ++ "- Dietary Preference: " ++ d ++ "\n" else p
  | none => p

/-- Line 217: `if (allergies)` appends the allergies line. -/
def addAllergiesLine (p : String) : Option String → String
  | some a => if a != "" then p ++ "- Allergies to avoid: " ++ a ++ ".\n" else p
  | none => p

/-- Line 218: `if (cookingStyle)` appends the style line. -/
def addStyleLine (p : String) : Option String → String
  | some c => if c != "" then p ++ "- The recipe should be in the style of: " ++ c ++ ".\n" else p
  | none => p

/-- Lines 200-218: the full synthesis prompt for a request. -/
def buildPrompt (req : RecipeRequest) : String :=
  addStyleLine
    (addAllergiesLine
      (addDietLine
        (addTimeLine (basePromptText ++ joinSepStr ", " req.ingredients ++ "\n") req.time)
        req.diet)
      req.allergies)
    req.cookingStyle

/-- Line 231: the fixed text of the self-repair prompt up to the broken JSON. -/
def fixupHead : String :=
  "The following JSON is broken. Please fix it and return only the valid JSON object.\n\nBroken JSON:\n"

/-- Lines 245-254: the freshly synthesized record as persisted — ingredients
as submitted, the parsed recipe and nutrition values, the constraint snapshot,
isFavourite false, generationCount 1, the computed signature, and the
store-assigned identifier. -/
def newRecordOf (store : Store) (req : RecipeRequest) (key : String) (now : Nat)
    (parsedData : JsVal) : StoredRecord :=
  { id := store.nextId
    ingredients := req.ingredients
    recipe := getField parsedData "recipe"
    nutrition := getField parsedData "nutrition"
    createdAt := now
    customization := ⟨req.time, req.diet, req.allergies, req.cookingStyle⟩
    isFavourite := false
    generationCount := 1
    uniqueKey := key }

/-- Lines 241-259: after a successful parse, destructure recipe and nutrition,
throw when either is falsy (in particular absent), otherwise persist the new
record and answer it with the store-assigned identifier. -/
def completeSynthesis (store : Store) (req : RecipeRequest) (key : String) (now : Nat)
    (parsedData : JsVal) (calls : List String) : Store × GenResponse × List String :=
  if !truthy (getField parsedData "recipe") || !truthy (getField parsedData "nutrition") then
    (store, .serverError .missingData, calls)
  else
    ({ records := store.records ++ [newRecordOf store req key now parsedData]
       nextId := store.nextId + 1 },
      .ok (newRecordOf store req key now parsedData),
      calls)

/-- The POST /get-recipe handler (lines 165-265). `hash` is the sha256 digest,
`parse` is JSON.parse (none when it throws), `ai` maps a prompt to the text of
the first candidate (none when that field is absent — reading it then throws a
TypeError caught as a 500), `now` is the clock. The last component lists the
prompts sent to the generative endpoint in order. -/
def getRecipeHandler (hash : String → String) (parse : String → Option JsVal)
    (ai : String → Option String) (now : Nat) (store : Store) (req : RecipeRequest) :
    Store × GenResponse × List String :=
  if req.ingredients.isEmpty then
    (store, .badRequest "Ingredients are required and must be an array.", [])
  else
    match findByKey store (uniqueKey hash req) with
    | some existingDoc =>
      match findById (touch store existingDoc.id) existingDoc.id with
      | some updatedDoc => (touch store existingDoc.id, .ok updatedDoc, [])
      | none => (touch store existingDoc.id, .serverError .storeReadFailed, [])
    | none =>
      match ai (buildPrompt req) with
      | none => (store, .serverError .aiResponseShape, [buildPrompt req])
      | some raw =>
        match parse (stripNewlinesStr (stripFencesStr raw)) with
        | some parsedData =>
          completeSynthesis store req (uniqueKey hash req) now parsedData [buildPrompt req]
        | none =>
          match ai (fixupHead ++ stripFencesStr raw) with
          | none =>
            (store, .serverError .aiResponseShape,
              [buildPrompt req, fixupHead ++ stripFencesStr raw])
          | some raw2 =>
            match parse (stripNewlinesStr (stripFencesStr raw2)) with
            | some parsedData =>
              completeSynthesis store req (uniqueKey hash req) now parsedData
                [buildPrompt req, fixupHead ++ stripFencesStr raw]
            | none =>
              (store, .serverError .unrepairedJson,
                [buildPrompt req, fixupHead ++ stripFencesStr raw])

/-- HTTP outcome of POST /recipes/:id/favourite. -/
inductive FavResponse where
  | ok
  | badRequest (msg : String)
  | serverError (msg : String)

/-- The POST /recipes/:id/favourite handler (lines 300-317): reject a
non-boolean body field, otherwise update the single field isFavourite of the
document (an absent document makes the update throw, surfaced as a 500). -/
def favouriteHandler (store : Store) (rid : Nat) (body : JsVal) : Store × FavResponse :=
  match body with
  | .bool b =>
    match findById store rid with
    | none => (store, .serverError "Failed to update recipe favourite status.")
    | some _ =>
      ({ store with
         records := store.records.map
           (fun r => if r.id == rid then { r with isFavourite := b } else r) },
        .ok)
  | _ => (store, .badRequest "isFavourite must be a boolean.")

-- ## Claim C8: the favourite toggle

theorem findById_map_updateFav (store : Store) (rid : Nat) (b : Bool) (r : StoredRecord)
    (h : findById store rid = some r) :
    findById
      { store with
        records := store.records.map
          (fun x => if x.id == rid then { x with isFavourite := b } else x) } rid =
      some { r with isFavourite := b } := by
  unfold findById at h ⊢
  rw [List.find?_map]
  have hfun : ((fun x : StoredRecord => x.id == rid) ∘
      (fun x => if x.id == rid then { x with isFavourite := b } else x)) =
      (fun x : StoredRecord => x.id == rid) := by
    funext x
    by_cases hx : (x.id == rid) = true <;> simp [Function.comp, hx]
  rw [hfun, h]
  have hr0 := List.find?_some h
  have hr : (r.id == rid) = true := hr0
  simp [hr]
  intro hne
  exact absurd (beq_iff_eq.mp hr) hne

theorem map_map_fav (store : Store) (rid : Nat) :
    (store.records.map
        (fun x => if x.id == rid then { x with isFavourite := true } else x)).map
      (fun x => if x.id == rid then { x with isFavourite := false } else x) =
      store.records.map (fun x => if x.id == rid then { x with isFavourite := false } else x) := by
  rw [List.map_map]
  congr 1
  funext x
  by_cases hx : (x.id == rid) = true <;> simp [Function.comp, hx]

/-- C8: toggling the favourite flag of an existing record to true and then to
false answers 200 both times, leaves the final flag false, changes no other
record, and changes no other field of the record — in particular its
generationCount. -/
theorem spec_C8_favourite_toggle :
    ∀ store rid r, findById store rid = some r →
      (favouriteHandler store rid (.bool true)).2 = .ok ∧
        (favouriteHandler (favouriteHandler store rid (.bool true)).1 rid (.bool false)).2 =
          .ok ∧
        (favouriteHandler (favouriteHandler store rid (.bool true)).1 rid
              (.bool false)).1.records =
          store.records.map
            (fun x => if x.id == rid then { x with isFavourite := false } else x) ∧
        findById
            (favouriteHandler (favouriteHandler store rid (.bool true)).1 rid
              (.bool false)).1 rid =
          some { r with isFavourite := false } := by
  intro store rid r h
  have h1 : favouriteHandler store rid (.bool true) =
      ({ store with
         records := store.records.map
           (fun x => if x.id == rid then { x with isFavourite := true } else x) },
        .ok) := by
    unfold favouriteHandler
    rw [h]
  have hid1 := findById_map_updateFav store rid true r h
  have h2 : favouriteHandler (favouriteHandler store rid (.bool true)).1 rid (.bool false) =
      ({ store with
         records := store.records.map
           (fun x => if x.id == rid then { x with isFavourite := false } else x) },
        .ok) := by
    rw [h1]
    unfold favouriteHandler
    rw [hid1]
    simp only [map_map_fav]
  rw [h1] at h2 ⊢
  rw [h2]
  exact ⟨rfl, rfl, rfl, findById_map_updateFav store rid false r h⟩

/-- Store of the C8 witness. -/
def storeW8 : Store :=
  ⟨[{ id := 0
      ingredients := ["rice"]
      recipe := JsVal.null
      nutrition := JsVal.null
      createdAt := 5
      customization := ⟨none, none, none, none⟩
      isFavourite := false
      generationCount := 3
      uniqueKey := "k" }], 1⟩

/-- Record of the C8 witness. -/
def recW8 : StoredRecord :=
  { id := 0
    ingredients := ["rice"]
    recipe := JsVal.null
    nutrition := JsVal.null
    createdAt := 5
    customization := ⟨none, none, none, none⟩
    isFavourite := false
    generationCount := 3
    uniqueKey := "k" }

/-- Witness for C8 at a concrete one-record store. -/
theorem spec_C8_favourite_toggle_witness :
    (favouriteHandler storeW8 0 (.bool true)).2 = .ok ∧
      (favouriteHandler (favouriteHandler storeW8 0 (.bool true)).1 0 (.bool false)).2 =
        .ok ∧
      (favouriteHandler (favouriteHandler storeW8 0 (.bool true)).1 0
            (.bool false)).1.records =
        storeW8.records.map
          (fun x => if x.id == 0 then { x with isFavourite := false } else x) ∧
      findById
          (favouriteHandler (favouriteHandler storeW8 0 (.bool true)).1 0
            (.bool false)).1 0 =
        some { recW8 with isFavourite := false } :=
  spec_C8_favourite_toggle storeW8 0 recW8 rfl

-- ## Claims C5 and C7: the synthesis pipeline

/-- C5: on a cache miss whose first (fence- and newline-stripped) parse fails,
exactly one repair prompt — the fixed instruction followed by the broken text —
is sent after the original prompt; if the repaired response also fails to
parse, the handler answers 500 with the store unchanged. Moreover the
/get-recipe handler never sends more than two prompts and the scrape handler
never more than one, so the single repair is the only automatic retry. -/
theorem spec_C5_single_repair :
    (∀ hash parse ai now store req raw,
      req.ingredients ≠ [] →
      findByKey store (uniqueKey hash req) = none →
      ai (buildPrompt req) = some raw →
      parse (stripNewlinesStr (stripFencesStr raw)) = none →
      ((getRecipeHandler hash parse ai now store req).2.2 =
          [buildPrompt req, fixupHead ++ stripFencesStr raw]) ∧
        (∀ raw2, ai (fixupHead ++ stripFencesStr raw) = some raw2 →
          parse (stripNewlinesStr (stripFencesStr raw2)) = none →
          getRecipeHandler hash parse ai now store req =
            (store, .serverError .unrepairedJson,
              [buildPrompt req, fixupHead ++ stripFencesStr raw]))) ∧
    (∀ hash parse ai now store req,
      ((getRecipeHandler hash parse ai now store req).2.2).length ≤ 2) ∧
    (∀ parse ai doc, ((scrapeHandler parse ai doc).2).length ≤ 1) := by
  refine ⟨?_, ?_, ?_⟩
  · intro hash parse ai now store req raw hne hkey hai hparse
    have hie : req.ingredients.isEmpty = false := by
      cases hr : req.ingredients with
      | nil => exact absurd hr hne
      | cons a as => rfl
    constructor
    · cases hf : ai (fixupHead ++ stripFencesStr raw) with
      | none =>
        simp only [getRecipeHandler, hie, Bool.false_eq_true, if_false, hkey, hai,
          hparse, hf]
      | some raw2 =>
        cases hp2 : parse (stripNewlinesStr (stripFencesStr raw2)) with
        | none =>
          simp only [getRecipeHandler, hie, Bool.false_eq_true, if_false, hkey, hai,
            hparse, hf, hp2]
        | some v =>
          simp only [getRecipeHandler, hie, Bool.false_eq_true, if_false, hkey, hai,
            hparse, hf, hp2]
          unfold completeSynthesis
          split <;> rfl
    · intro raw2 hf hp2
      simp only [getRecipeHandler, hie, Bool.false_eq_true, if_false, hkey, hai, hparse,
        hf, hp2]
  · intro hash parse ai now store req
    unfold getRecipeHandler completeSynthesis
    repeat' split
    all_goals simp
  · intro parse ai doc
    unfold scrapeHandler
    repeat' split
    all_goals simp

/-- Oracle failing every JSON parse (C5 witness). -/
def parse5 : String → Option JsVal := fun _ => none

/-- Generative oracle of the C5 witness. -/
def ai5 : String → Option String := fun _ => some "oops"

/-- Request of the C5 witness. -/
def req5 : RecipeRequest := ⟨["egg"], none, none, none, none⟩

/-- Empty store of the C5 witness. -/
def store5 : Store := ⟨[], 0⟩

/-- Scrape document of the C5 witness. -/
def doc5 : ScrapeDoc := ⟨[], "x"⟩

/-- Witness for C5 at a concrete double-parse-failure scenario. -/
theorem spec_C5_single_repair_witness :
    getRecipeHandler (fun s => s) parse5 ai5 0 store5 req5 =
        (store5, .serverError .unrepairedJson,
          [buildPrompt req5, fixupHead ++ stripFencesStr "oops"]) ∧
      ((getRecipeHandler (fun s => s) parse5 ai5 0 store5 req5).2.2).length ≤ 2 ∧
      ((scrapeHandler parse5 ai5 doc5).2).length ≤ 1 := by
  refine ⟨?_, ?_, ?_⟩
  · exact (spec_C5_single_repair.1 (fun s => s) parse5 ai5 0 store5 req5 "oops"
      (by decide) rfl rfl rfl).2 "oops" rfl rfl
  · exact spec_C5_single_repair.2.1 (fun s => s) parse5 ai5 0 store5 req5
  · exact spec_C5_single_repair.2.2 parse5 ai5 doc5

theorem getField_undefined_of_hasField_false (v : JsVal) (k : String)
    (h : hasField v k = false) : getField v k = .undefined := by
  cases v with
  | obj fs =>
    have h' : fs.any (fun p => p.1 == k) = false := h
    have hall : ∀ x ∈ fs, ¬ (x.1 == k) = true := by
      intro x hx hpx
      have hany : fs.any (fun p => p.1 == k) = true := List.any_eq_true.mpr ⟨x, hx, hpx⟩
      rw [h'] at hany
      exact Bool.noConfusion hany
    show (match fs.find? (fun p => p.1 == k) with
      | some p => p.2
      | none => JsVal.undefined) = JsVal.undefined
    rw [List.find?_eq_none.mpr hall]
  | undefined => rfl
  | null => rfl
  | bool b => rfl
  | num n => rfl
  | str s => rfl
  | arr xs => rfl

/-- C7: on a cache miss, after any successful parse (first attempt or repair
attempt), a parsed object lacking the top-level key recipe or the top-level
key nutrition makes the handler answer 500 with the store unchanged — no
record is inserted. -/
theorem spec_C7_missing_key_fails :
    ∀ hash parse ai now store req raw v,
      req.ingredients ≠ [] →
      findByKey store (uniqueKey hash req) = none →
      ai (buildPrompt req) = some raw →
      (parse (stripNewlinesStr (stripFencesStr raw)) = some v ∨
        (parse (stripNewlinesStr (stripFencesStr raw)) = none ∧
          ∃ raw2, ai (fixupHead ++ stripFencesStr raw) = some raw2 ∧
            parse (stripNewlinesStr (stripFencesStr raw2)) = some v)) →
      (hasField v "recipe" = false ∨ hasField v "nutrition" = false) →
      (getRecipeHandler hash parse ai now store req).1 = store ∧
        (getRecipeHandler hash parse ai now store req).2.1 = .serverError .missingData := by
  intro hash parse ai now store req raw v hne hkey hai hpath habs
  have hie : req.ingredients.isEmpty = false := by
    cases hr : req.ingredients with
    | nil => exact absurd hr hne
    | cons a as => rfl
  have hcond : (!truthy (getField v "recipe") || !truthy (getField v "nutrition")) = true := by
    rcases habs with h | h
    · rw [getField_undefined_of_hasField_false v "recipe" h]
      simp [truthy]
    · rw [getField_undefined_of_hasField_false v "nutrition" h]
      simp [truthy]
  rcases hpath with hp | ⟨hp, raw2, hf2, hp2⟩
  · constructor <;>
      simp only [getRecipeHandler, hie, Bool.false_eq_true, if_false, hkey, hai, hp,
        completeSynthesis, hcond, if_true]
  · constructor <;>
      simp only [getRecipeHandler, hie, Bool.false_eq_true, if_false, hkey, hai, hp, hf2,
        hp2, completeSynthesis, hcond, if_true]

/-- Parse oracle of the C7 witness: a parsed object with no nutrition key. -/
def parse7 : String → Option JsVal := fun _ =>
  some (JsVal.obj [("recipe", JsVal.num 1)])

/-- Generative oracle of the C7 witness. -/
def ai7 : String → Option String := fun _ => some "x"

/-- Request of the C7 witness. -/
def req7 : RecipeRequest := ⟨["egg"], none, none, none, none⟩

/-- Empty store of the C7 witness. -/
def store7 : Store := ⟨[], 0⟩

/-- Witness for C7: the missing nutrition key yields a 500 and no insertion. -/
theorem spec_C7_missing_key_fails_witness :
    (getRecipeHandler (fun s => s) parse7 ai7 0 store7 req7).1 = store7 ∧
      (getRecipeHandler (fun s => s) parse7 ai7 0 store7 req7).2.1 =
        .serverError .missingData :=
  spec_C7_missing_key_fails (fun s => s) parse7 ai7 0 store7 req7 "x"
    (JsVal.obj [("recipe", JsVal.num 1)]) (by decide) rfl rfl (Or.inl rfl) (Or.inr rfl)

-- ## Claim C1: cache hit on the second equivalent request, insert on a miss

theorem findByKey_touch (store : Store) (rid : Nat) (key : String) :
    findByKey (touch store rid) key =
      (findByKey store key).map
        (fun r => if r.id == rid then { r with generationCount := r.generationCount + 1 }
          else r) := by
  unfold findByKey touch
  simp only [List.find?_map]
  have hfun : ((fun r : StoredRecord => r.uniqueKey == key) ∘
      (fun r => if r.id == rid then { r with generationCount := r.generationCount + 1 }
        else r)) =
      (fun r : StoredRecord => r.uniqueKey == key) := by
    funext x
    by_cases hx : (x.id == rid) = true <;> simp [Function.comp, hx]
  rw [hfun]

theorem findById_touch (store : Store) (rid : Nat) :
    findById (touch store rid) rid =
      (findById store rid).map
        (fun r => if r.id == rid then { r with generationCount := r.generationCount + 1 }
          else r) := by
  unfold findById touch
  simp only [List.find?_map]
  have hfun : ((fun r : StoredRecord => r.id == rid) ∘
      (fun r => if r.id == rid then { r with generationCount := r.generationCount + 1 }
        else r)) =
      (fun r : StoredRecord => r.id == rid) := by
    funext x
    by_cases hx : (x.id == rid) = true <;> simp [Function.comp, hx]
  rw [hfun]

theorem findById_of_mem_nodup (l : List StoredRecord)
    (hnd : (l.map (fun r => r.id)).Nodup) (d : StoredRecord) (hd : d ∈ l) :
    l.find? (fun r => r.id == d.id) = some d := by
  induction l with
  | nil => cases hd
  | cons a as ih =>
    have hnd' := List.nodup_cons.mp
      (show (a.id :: as.map (fun r => r.id)).Nodup from hnd)
    rcases List.mem_cons.mp hd with h | h
    · subst h
      exact List.find?_cons_of_pos _ (by simp)
    · have h2 : d.id ∈ as.map (fun r => r.id) := List.mem_map_of_mem _ h
      have hne : ¬ (a.id == d.id) = true := by
        simp only [beq_iff_eq]
        intro he
        rw [he] at hnd'
        exact hnd'.1 h2
      rw [@List.find?_cons_of_neg _ (fun r => r.id == d.id) a as hne]
      exact ih hnd'.2 h

theorem find?_append_none {α : Type} (p : α → Bool) (l1 l2 : List α)
    (h : l1.find? p = none) : (l1 ++ l2).find? p = l2.find? p := by
  induction l1 with
  | nil => rfl
  | cons a as ih =>
    cases hpa : p a with
    | true =>
      rw [@List.find?_cons_of_pos _ p a as hpa] at h
      exact Option.noConfusion h
    | false =>
      rw [@List.find?_cons_of_neg _ p a as (by simp [hpa])] at h
      rw [List.cons_append, @List.find?_cons_of_neg _ p a (as ++ l2) (by simp [hpa])]
      exact ih h

theorem storeWf_touch (store : Store) (rid : Nat) (hwf : StoreWf store) :
    StoreWf (touch store rid) := by
  obtain ⟨hnd, hlt⟩ := hwf
  constructor
  · have hmap : (touch store rid).records.map (fun r => r.id) =
        store.records.map (fun r => r.id) := by
      unfold touch
      simp only [List.map_map]
      congr 1
      funext x
      by_cases hx : (x.id == rid) = true <;> simp [Function.comp, hx]
    rw [hmap]
    exact hnd
  · intro r hr
    have hr' : r ∈ store.records.map
        (fun x => if x.id == rid then { x with generationCount := x.generationCount + 1 }
          else x) := hr
    rcases List.mem_map.mp hr' with ⟨r0, hr0, rfl⟩
    by_cases hx : (r0.id == rid) = true
    · simp only [hx, if_true]
      exact hlt r0 hr0
    · simp only [hx, if_false]
      exact hlt r0 hr0

theorem getRecipe_hit (hash : String → String) (parse : String → Option JsVal)
    (ai : String → Option String) (now : Nat) (store : Store) (req : RecipeRequest)
    (m : StoredRecord) (hwf : StoreWf store) (hie : req.ingredients.isEmpty = false)
    (hkey : findByKey store (uniqueKey hash req) = some m) :
    getRecipeHandler hash parse ai now store req =
      (touch store m.id, .ok { m with generationCount := m.generationCount + 1 }, []) := by
  have hkey' : store.records.find? (fun r => r.uniqueKey == uniqueKey hash req) = some m :=
    hkey
  have hmem : m ∈ store.records := List.mem_of_find?_eq_some hkey'
  have hfid : findById store m.id = some m :=
    findById_of_mem_nodup store.records hwf.1 m hmem
  have hupd : findById (touch store m.id) m.id =
      some { m with generationCount := m.generationCount + 1 } := by
    rw [findById_touch, hfid]
    simp
  simp only [getRecipeHandler, hie, Bool.false_eq_true, if_false, hkey, hupd]

theorem completeSynthesis_ok_fields (store : Store) (req : RecipeRequest) (key : String)
    (now : Nat) (v : JsVal) (calls : List String) (store' : Store) (rec : StoredRecord)
    (calls' : List String)
    (h : completeSynthesis store req key now v calls = (store', .ok rec, calls')) :
    rec = newRecordOf store req key now v ∧
      store' = { records := store.records ++ [rec], nextId := store.nextId + 1 } := by
  unfold completeSynthesis at h
  by_cases hc : (!truthy (getField v "recipe") || !truthy (getField v "nutrition")) = true
  · rw [if_pos hc] at h
    exact GenResponse.noConfusion
      (show GenResponse.serverError .missingData = GenResponse.ok rec from
        congrArg (fun x => x.2.1) h)
  · rw [if_neg hc] at h
    have hr : GenResponse.ok (newRecordOf store req key now v) = GenResponse.ok rec :=
      congrArg (fun x => x.2.1) h
    have hs : (⟨store.records ++ [newRecordOf store req key now v],
        store.nextId + 1⟩ : Store) = store' :=
      congrArg (fun x => x.1) h
    injection hr with hrec
    refine ⟨hrec.symm, ?_⟩
    rw [← hs, hrec]

theorem getRecipe_miss_ok_inv (hash : String → String) (parse : String → Option JsVal)
    (ai : String → Option String) (now : Nat) (store : Store) (req : RecipeRequest)
    (store' : Store) (rec : StoredRecord) (calls : List String)
    (hkey : findByKey store (uniqueKey hash req) = none)
    (h : getRecipeHandler hash parse ai now store req = (store', .ok rec, calls)) :
    rec.generationCount = 1 ∧ rec.isFavourite = false ∧
      rec.uniqueKey = uniqueKey hash req ∧ rec.id = store.nextId ∧
      store' = { records := store.records ++ [rec], nextId := store.nextId + 1 } := by
  have hie : req.ingredients.isEmpty = false := by
    cases hi : req.ingredients.isEmpty
    · rfl
    · exfalso
      unfold getRecipeHandler at h
      rw [hi, if_pos rfl] at h
      exact GenResponse.noConfusion
        (show GenResponse.badRequest "Ingredients are required and must be an array." =
            GenResponse.ok rec from congrArg (fun x => x.2.1) h)
  cases hai : ai (buildPrompt req) with
  | none =>
    exfalso
    simp only [getRecipeHandler, hie, Bool.false_eq_true, if_false, hkey, hai] at h
    exact GenResponse.noConfusion
      (show GenResponse.serverError .aiResponseShape = GenResponse.ok rec from
        congrArg (fun x => x.2.1) h)
  | some raw =>
    cases hp1 : parse (stripNewlinesStr (stripFencesStr raw)) with
    | some v =>
      simp only [getRecipeHandler, hie, Bool.false_eq_true, if_false, hkey, hai, hp1] at h
      obtain ⟨hrec, hs⟩ := completeSynthesis_ok_fields _ _ _ _ _ _ _ _ _ h
      refine ⟨?_, ?_, ?_, ?_, hs⟩ <;> rw [hrec] <;> rfl
    | none =>
      cases hai2 : ai (fixupHead ++ stripFencesStr raw) with
      | none =>
        exfalso
        simp only [getRecipeHandler, hie, Bool.false_eq_true, if_false, hkey, hai, hp1,
          hai2] at h
        exact GenResponse.noConfusion
          (show GenResponse.serverError .aiResponseShape = GenResponse.ok rec from
            congrArg (fun x => x.2.1) h)
      | some raw2 =>
        cases hp2 : parse (stripNewlinesStr (stripFencesStr raw2)) with
        | some v =>
          simp only [getRecipeHandler, hie, Bool.false_eq_true, if_false, hkey, hai, hp1,
            hai2, hp2] at h
          obtain ⟨hrec, hs⟩ := completeSynthesis_ok_fields _ _ _ _ _ _ _ _ _ h
          refine ⟨?_, ?_, ?_, ?_, hs⟩ <;> rw [hrec] <;> rfl
        | none =>
          exfalso
          simp only [getRecipeHandler, hie, Bool.false_eq_true, if_false, hkey, hai, hp1,
            hai2, hp2] at h
          exact GenResponse.noConfusion
            (show GenResponse.serverError .unrepairedJson = GenResponse.ok rec from
              congrArg (fun x => x.2.1) h)

theorem getRecipe_ok_state (hash : String → String) (parse : String → Option JsVal)
    (ai : String → Option String) (now : Nat) (store : Store) (req : RecipeRequest)
    (store' : Store) (rec : StoredRecord) (calls : List String)
    (hwf : StoreWf store)
    (h : getRecipeHandler hash parse ai now store req = (store', .ok rec, calls)) :
    findByKey store' (uniqueKey hash req) = some rec ∧ StoreWf store' ∧
      req.ingredients.isEmpty = false := by
  have hie : req.ingredients.isEmpty = false := by
    cases hi : req.ingredients.isEmpty
    · rfl
    · exfalso
      unfold getRecipeHandler at h
      rw [hi, if_pos rfl] at h
      exact GenResponse.noConfusion
        (show GenResponse.badRequest "Ingredients are required and must be an array." =
            GenResponse.ok rec from congrArg (fun x => x.2.1) h)
  cases hkey : findByKey store (uniqueKey hash req) with
  | some m =>
    rw [getRecipe_hit hash parse ai now store req m hwf hie hkey] at h
    have hs : touch store m.id = store' := congrArg (fun x => x.1) h
    have hr : GenResponse.ok { m with generationCount := m.generationCount + 1 } =
        GenResponse.ok rec := congrArg (fun x => x.2.1) h
    injection hr with hrec
    refine ⟨?_, ?_, hie⟩
    · rw [← hs, findByKey_touch, hkey, ← hrec]
      simp
    · rw [← hs]
      exact storeWf_touch store m.id hwf
  | none =>
    obtain ⟨hgen, hfav, hkeyrec, hid, hs⟩ :=
      getRecipe_miss_ok_inv hash parse ai now store req store' rec calls hkey h
    refine ⟨?_, ?_, hie⟩
    · rw [hs]
      show (store.records ++ [rec]).find? (fun r => r.uniqueKey == uniqueKey hash req) =
        some rec
      rw [find?_append_none _ _ _ hkey]
      exact List.find?_cons_of_pos _ (by simp [hkeyrec])
    · rw [hs]
      obtain ⟨hnd, hlt⟩ := hwf
      constructor
      · show ((store.records ++ [rec]).map (fun r => r.id)).Nodup
        rw [List.map_append, List.nodup_append]
        refine ⟨hnd, by simp, ?_⟩
        intro a ha hb
        rcases List.mem_map.mp ha with ⟨r0, hr0, rfl⟩
        simp only [List.map_cons, List.map_nil, List.mem_singleton] at hb
        rw [hid] at hb
        exact Nat.ne_of_lt (hlt r0 hr0) hb
      · intro r hr
        have hr' : r ∈ store.records ++ [rec] := hr
        show r.id < store.nextId + 1
        rcases List.mem_append.mp hr' with h1 | h1
        · exact Nat.lt_succ_of_lt (hlt r h1)
        · simp only [List.mem_singleton] at h1
          rw [h1, hid]
          exact Nat.lt_succ_self _

/-- C1: (hit) after a successful /get-recipe call, a second sequential call
whose ingredient list is a permutation of the first and whose constraints
agree takes the cache-hit path — it answers the same record identifier with
generationCount exactly one greater, sends no prompt, and the record count is
unchanged; (miss) a call whose signature is not in the store that answers 200
has inserted exactly one record with generationCount 1, isFavourite false,
the computed signature, and the store-assigned identifier, and answers it. -/
theorem spec_C1_cache_hit_and_insert :
    (∀ hash parse ai now1 now2 store0 store1 rec1 calls1 req1 req2,
      StoreWf store0 →
      req1.ingredients.Perm req2.ingredients →
      req1.time = req2.time → req1.diet = req2.diet →
      req1.allergies = req2.allergies → req1.cookingStyle = req2.cookingStyle →
      getRecipeHandler hash parse ai now1 store0 req1 = (store1, .ok rec1, calls1) →
      getRecipeHandler hash parse ai now2 store1 req2 =
          (touch store1 rec1.id,
            .ok { rec1 with generationCount := rec1.generationCount + 1 }, []) ∧
        (touch store1 rec1.id).records.length = store1.records.length) ∧
    (∀ hash parse ai now store store' rec calls req,
      findByKey store (uniqueKey hash req) = none →
      getRecipeHandler hash parse ai now store req = (store', .ok rec, calls) →
      rec.generationCount = 1 ∧ rec.isFavourite = false ∧
        rec.uniqueKey = uniqueKey hash req ∧ rec.id = store.nextId ∧
        store' = { records := store.records ++ [rec], nextId := store.nextId + 1 }) := by
  constructor
  · intro hash parse ai now1 now2 store0 store1 rec1 calls1 req1 req2 hwf hperm ht hd ha
      hc h1
    obtain ⟨hfind, hwf1, hie1⟩ :=
      getRecipe_ok_state hash parse ai now1 store0 req1 store1 rec1 calls1 hwf h1
    have hkey12 : uniqueKey hash req2 = uniqueKey hash req1 := by
      unfold uniqueKey
      rw [requestString_congr hperm.symm ht.symm hd.symm ha.symm hc.symm]
    have hie2 : req2.ingredients.isEmpty = false := by
      cases h2 : req2.ingredients with
      | cons a as => rfl
      | nil =>
        exfalso
        rw [h2] at hperm
        have hnil : req1.ingredients = [] := List.Perm.eq_nil hperm
        rw [hnil] at hie1
        exact Bool.noConfusion hie1
    have hhit : findByKey store1 (uniqueKey hash req2) = some rec1 := by
      rw [hkey12]
      exact hfind
    constructor
    · exact getRecipe_hit hash parse ai now2 store1 req2 rec1 hwf1 hie2 hhit
    · unfold touch
      simp
  · intro hash parse ai now store store' rec calls req hkey h
    exact getRecipe_miss_ok_inv hash parse ai now store req store' rec calls hkey h

/-- Parse oracle of the C1 witness: a complete parsed object. -/
def parseW1 : String → Option JsVal := fun _ =>
  some (JsVal.obj [("recipe", JsVal.num 1), ("nutrition", JsVal.num 2)])

/-- Generative oracle of the C1 witness. -/
def aiW1 : String → Option String := fun _ => some "j"

/-- First request of the C1 witness. -/
def reqC1a : RecipeRequest := ⟨["b", "a"], none, none, none, none⟩

/-- Second request of the C1 witness: same ingredients in the other order. -/
def reqC1b : RecipeRequest := ⟨["a", "b"], none, none, none, none⟩

/-- Empty store of the C1 witness. -/
def store0W : Store := ⟨[], 0⟩

/-- Record inserted by the first call of the C1 witness. -/
def rec1W : StoredRecord :=
  { id := 0
    ingredients := ["b", "a"]
    recipe := JsVal.num 1
    nutrition := JsVal.num 2
    createdAt := 7
    customization := ⟨none, none, none, none⟩
    isFavourite := false
    generationCount := 1
    uniqueKey := "a,b#undefined|undefined|undefined|undefined" }

/-- Store after the first call of the C1 witness. -/
def store1W : Store := ⟨[rec1W], 1⟩

/-- Witness for C1: the concrete first call inserts the record (miss clause),
and the concrete second call with permuted ingredients takes the hit path. -/
theorem spec_C1_cache_hit_and_insert_witness :
    (getRecipeHandler (fun s => s) parseW1 aiW1 8 store1W reqC1b =
        (touch store1W rec1W.id,
          .ok { rec1W with generationCount := rec1W.generationCount + 1 }, []) ∧
      (touch store1W rec1W.id).records.length = store1W.records.length) ∧
      (rec1W.generationCount = 1 ∧ rec1W.isFavourite = false ∧
        rec1W.uniqueKey = uniqueKey (fun s => s) reqC1a ∧ rec1W.id = store0W.nextId ∧
        store1W = { records := store0W.records ++ [rec1W], nextId := store0W.nextId + 1 }) := by
  constructor
  · exact spec_C1_cache_hit_and_insert.1 (fun s => s) parseW1 aiW1 7 8 store0W store1W
      rec1W [buildPrompt reqC1a] reqC1a reqC1b
      ⟨List.nodup_nil, fun r hr => absurd hr (List.not_mem_nil r)⟩
      (List.Perm.swap "a" "b" []) rfl rfl rfl rfl rfl
  · exact spec_C1_cache_hit_and_insert.2 (fun s => s) parseW1 aiW1 7 store0W store1W
      rec1W [buildPrompt reqC1a] reqC1a rfl rfl
